import Mathlib

/-!
Shallow embedding of the DocNexus SDK platform module (`src/platform.ts`):
the endpoint registry, the path resolver, and the name-based dispatcher
`call`. Platform primitives used by that module (`JSON.parse`,
`JSON.stringify`, `String(...)` conversion, `encodeURIComponent`,
`String.prototype.replace` with a plain-string pattern, the `fetch`
response surface) are modelled executably below so every branch of the
dispatcher can be evaluated on concrete inputs.
-/

/-- JSON-compatible values: payload values and parsed response bodies.
Numbers are kept as their source lexeme (a digit string as written in the
JSON text); none of the verified properties depends on numeric arithmetic,
only on null-ness, field presence and string conversion. -/
inductive Json where
  | null
  | bool (b : Bool)
  | num (lexeme : String)
  | str (s : String)
  | arr (elems : List Json)
  | obj (fields : List (String × Json))

/-- True exactly on the JSON null value (JS `value === null`). -/
def Json.isNull : Json → Bool
  | .null => true
  | _ => false

/-- Left brace character, kept out of literals. -/
def lbrace : Char := Char.ofNat 123

/-- Right brace character, kept out of literals. -/
def rbrace : Char := Char.ofNat 125

/-- Substring test on character lists: does `pat` occur contiguously in `l`?
Models JS `String.prototype.includes`. -/
def subOf (pat : List Char) : List Char → Bool
  | [] => pat.isEmpty
  | c :: tail => pat.isPrefixOf (c :: tail) || subOf pat tail

/-- Substring test on strings (JS `includes`). -/
def hasSubstr (s pat : String) : Bool := subOf pat.data s.data

/-- Prefix test on strings (JS `String.prototype.startsWith`). -/
def strStartsWith (s p : String) : Bool := p.data.isPrefixOf s.data

/-- ASCII lowercasing of one character. -/
def asciiLower (c : Char) : Char :=
  if 'A' ≤ c ∧ c ≤ 'Z' then Char.ofNat (c.toNat + 32) else c

/-- ASCII lowercasing of a string; HTTP header names are ASCII, so this is
all the case-insensitivity `Headers.get` needs. -/
def strToLower (s : String) : String := ⟨s.data.map asciiLower⟩

/-- Propositional substring statement used to state that an error message
contains a given fragment. -/
def SubstrOf (pat s : String) : Prop := ∃ p q, s = p ++ pat ++ q

/-- Strip every non-digit character (JS `str.replace(/\D/g, "")`;
JS `\d` is exactly the ASCII digits 0-9). -/
def digitsOnly (s : String) : String := ⟨s.data.filter Char.isDigit⟩

/-- JS regex word character `\w`, that is `[A-Za-z0-9_]`. -/
def isWordChar (c : Char) : Bool :=
  (('A' ≤ c && c ≤ 'Z') || ('a' ≤ c && c ≤ 'z') || c.isDigit || c = '_')

/-- Does the character list match the regex `:[\w]+` anywhere, i.e. contain
a colon immediately followed by a word character? Models the dispatcher's
unresolved-placeholder test `/:[\w]+/.test(path)`. -/
def placeholderIn : List Char → Bool
  | c1 :: c2 :: rest => (c1 = ':' && isWordChar c2) || placeholderIn (c2 :: rest)
  | _ => false

/-- String form of the unresolved-placeholder test. -/
def hasPlaceholder (s : String) : Bool := placeholderIn s.data

/-- Replace the first occurrence of `pat` in `l` by `rep`; if `pat` does not
occur, the list is returned unchanged. Models JS
`String.prototype.replace(pattern, rep)` with a plain-string pattern, which
replaces only the first occurrence. -/
def replaceFirstL (l : List Char) (pat rep : List Char) : List Char :=
  match l with
  | [] => []
  | c :: cs =>
    if pat.isPrefixOf (c :: cs) then rep ++ (c :: cs).drop pat.length
    else c :: replaceFirstL cs pat rep

/-- String form of first-occurrence replacement (JS `replace` with a string
pattern). -/
def replaceFirst (s pat rep : String) : String := ⟨replaceFirstL s.data pat.data rep.data⟩

mutual

/-- JS `String(value)` conversion of a JSON value: `null`, booleans and
numbers print their literal form (numbers via their lexeme), strings pass
through, arrays `join(",")` their elements with null elements becoming
empty, and plain objects print `[object Object]`. -/
def jsToString : Json → String
  | .null => "null"
  | .bool true => "true"
  | .bool false => "false"
  | .num lexeme => lexeme
  | .str s => s
  | .arr elems => joinElems elems
  | .obj _ => "[object Object]"
termination_by structural j => j

/-- `Array.prototype.join(",")` over converted elements, as used by JS
array-to-string conversion: null elements convert to the empty string. -/
def joinElems : List Json → String
  | [] => ""
  | e :: rest =>
    (match e with
     | Json.null => ""
     | v => jsToString v)
      ++ (if rest.isEmpty then "" else ",") ++ joinElems rest
termination_by structural l => l

end

/-- Uppercase hexadecimal digit for percent-encoding. -/
def hexUpper (n : Nat) : Char :=
  if n < 10 then Char.ofNat (48 + n) else Char.ofNat (55 + n)

/-- Lowercase hexadecimal digit for JSON string escapes. -/
def hexLower (n : Nat) : Char :=
  if n < 10 then Char.ofNat (48 + n) else Char.ofNat (87 + n)

/-- UTF-8 encoding of one character, as byte values. -/
def utf8Bytes (c : Char) : List Nat :=
  let n := c.toNat
  if n < 128 then [n]
  else if n < 2048 then [192 + n / 64, 128 + n % 64]
  else if n < 65536 then [224 + n / 4096, 128 + (n / 64) % 64, 128 + n % 64]
  else [240 + n / 262144, 128 + (n / 4096) % 64, 128 + (n / 64) % 64, 128 + n % 64]

/-- Characters that JS `encodeURIComponent` leaves unescaped:
letters, digits and `- _ . ! ~ * ' ( )`. -/
def uriUnreserved (c : Char) : Bool :=
  (('A' ≤ c && c ≤ 'Z') || ('a' ≤ c && c ≤ 'z') || c.isDigit
    || c = '-' || c = '_' || c = '.' || c = '!' || c = '~' || c = '*'
    || c = '\'' || c = '(' || c = ')')

/-- Percent-encode one byte as `%XY` with uppercase hex. -/
def pctByte (n : Nat) : List Char := ['%', hexUpper (n / 16), hexUpper (n % 16)]

/-- JS `encodeURIComponent`: unreserved characters pass through, every
other character is written as the percent-encoding of its UTF-8 bytes. -/
def encodeURIComponent (s : String) : String :=
  ⟨(s.data.map (fun c =>
      if uriUnreserved c then [c] else ((utf8Bytes c).map pctByte).flatten)).flatten⟩

/-- One character of a JSON string literal as escaped by `JSON.stringify`:
quote and backslash get a backslash escape, the common control characters
get their short escapes, other control characters get `\u00xy`, everything
else passes through. -/
def escJsonChar (c : Char) : List Char :=
  if c = '"' then ['\\', '"']
  else if c = '\\' then ['\\', '\\']
  else if c.toNat = 8 then ['\\', 'b']
  else if c.toNat = 9 then ['\\', 't']
  else if c.toNat = 10 then ['\\', 'n']
  else if c.toNat = 12 then ['\\', 'f']
  else if c.toNat = 13 then ['\\', 'r']
  else if c.toNat < 32 then ['\\', 'u', '0', '0', hexLower (c.toNat / 16), hexLower (c.toNat % 16)]
  else [c]

/-- A JSON string literal: quoted and escaped as by `JSON.stringify`. -/
def quoteJson (s : String) : String :=
  ⟨'"' :: ((s.data.map escJsonChar).flatten ++ ['"'])⟩

mutual

/-- `JSON.stringify` on a JSON value (the dispatcher serializes POST
payloads with it). Numbers reproduce their stored lexeme. -/
def jsonStringify : Json → String
  | .null => "null"
  | .bool true => "true"
  | .bool false => "false"
  | .num lexeme => lexeme
  | .str s => quoteJson s
  | .arr elems => "[" ++ stringifyElems elems ++ "]"
  | .obj fields => String.singleton lbrace ++ stringifyFields fields ++ String.singleton rbrace
termination_by structural j => j

/-- Comma-separated serialization of array elements. -/
def stringifyElems : List Json → String
  | [] => ""
  | e :: rest =>
    jsonStringify e ++ (if rest.isEmpty then "" else ",") ++ stringifyElems rest
termination_by structural l => l

/-- Comma-separated serialization of object fields, keys quoted. -/
def stringifyFields : List (String × Json) → String
  | [] => ""
  | (k, v) :: rest =>
    quoteJson k ++ ":" ++ jsonStringify v ++ (if rest.isEmpty then "" else ",")
      ++ stringifyFields rest
termination_by structural l => l

end

/-- Value of one hexadecimal digit, if the character is one. -/
def hexVal (c : Char) : Option Nat :=
  if '0' ≤ c ∧ c ≤ '9' then some (c.toNat - 48)
  else if 'a' ≤ c ∧ c ≤ 'f' then some (c.toNat - 87)
  else if 'A' ≤ c ∧ c ≤ 'F' then some (c.toNat - 55)
  else none

/-- JSON whitespace: space, tab, line feed, carriage return. -/
def jsonWs (c : Char) : Bool :=
  c = ' ' || c.toNat = 9 || c.toNat = 10 || c.toNat = 13

/-- Drop leading JSON whitespace. -/
def skipWs (cs : List Char) : List Char := cs.dropWhile jsonWs

/-- UTF-16 code units of one Unicode scalar value, as a JS string stores
it: one unit for BMP characters, a surrogate pair for the rest. -/
def utf16Units (n : Nat) : List Nat :=
  if n < 65536 then [n]
  else [55296 + (n - 65536) / 1024, 56320 + (n - 65536) % 1024]

/-- Decode a list of UTF-16 code units to characters: a high surrogate
followed by a low surrogate combines into one supplementary character; a
lone surrogate (representable in a JS string but not as a Unicode scalar
value) becomes U+FFFD. -/
def utf16ToChars : List Nat → List Char
  | [] => []
  | [u] =>
    if 55296 ≤ u ∧ u ≤ 57343 then [Char.ofNat 65533] else [Char.ofNat u]
  | u :: u2 :: rest =>
    if 55296 ≤ u ∧ u ≤ 56319 then
      if 56320 ≤ u2 ∧ u2 ≤ 57343 then
        Char.ofNat (65536 + (u - 55296) * 1024 + (u2 - 56320)) :: utf16ToChars rest
      else Char.ofNat 65533 :: utf16ToChars (u2 :: rest)
    else if 56320 ≤ u ∧ u ≤ 57343 then Char.ofNat 65533 :: utf16ToChars (u2 :: rest)
    else Char.ofNat u :: utf16ToChars (u2 :: rest)

/-- Parse the remainder of a JSON string literal (after the opening quote),
returning the decoded UTF-16 code units (the JS string contents) and the
input after the closing quote. Escapes follow `JSON.parse`; a `\uXXXX`
escape contributes its code unit verbatim. -/
def parseStrL : List Char → Option (List Nat × List Char)
  | [] => none
  | c :: rest =>
    if c = '"' then some ([], rest)
    else if c = '\\' then
      match rest with
      | [] => none
      | e :: r2 =>
        if e = '"' then (parseStrL r2).map (fun p => (34 :: p.1, p.2))
        else if e = '\\' then (parseStrL r2).map (fun p => (92 :: p.1, p.2))
        else if e = '/' then (parseStrL r2).map (fun p => (47 :: p.1, p.2))
        else if e = 'b' then (parseStrL r2).map (fun p => (8 :: p.1, p.2))
        else if e = 'f' then (parseStrL r2).map (fun p => (12 :: p.1, p.2))
        else if e = 'n' then (parseStrL r2).map (fun p => (10 :: p.1, p.2))
        else if e = 'r' then (parseStrL r2).map (fun p => (13 :: p.1, p.2))
        else if e = 't' then (parseStrL r2).map (fun p => (9 :: p.1, p.2))
        else if e = 'u' then
          match r2 with
          | h1 :: h2 :: h3 :: h4 :: r3 =>
            match hexVal h1, hexVal h2, hexVal h3, hexVal h4 with
            | some a, some b, some c1, some d =>
              (parseStrL r3).map (fun p => ((((a * 16 + b) * 16 + c1) * 16 + d) :: p.1, p.2))
            | _, _, _, _ => none
          | _ => none
        else none
    else if c.toNat < 32 then none
    else (parseStrL rest).map (fun p => (utf16Units c.toNat ++ p.1, p.2))

/-- Decoded string contents of a JSON string literal body. -/
def unitsToString (units : List Nat) : String := ⟨utf16ToChars units⟩

/-- Split off a maximal run of leading ASCII digits. -/
def takeDigitsL (cs : List Char) : List Char × List Char :=
  (cs.takeWhile Char.isDigit, cs.dropWhile Char.isDigit)

/-- Parse a JSON number lexeme per the JSON grammar
`-?(0|[1-9][0-9]*)(\.[0-9]+)?([eE][+-]?[0-9]+)?`, returning the lexeme and
the rest of the input. -/
def parseNumL (cs : List Char) : Option (List Char × List Char) :=
  let sp : List Char × List Char :=
    match cs with
    | '-' :: r => (['-'], r)
    | _ => ([], cs)
  let sgn := sp.1
  let cs1 := sp.2
  match cs1 with
  | [] => none
  | c :: tail =>
    if ¬ c.isDigit then none
    else
      let intRes : Option (List Char × List Char) :=
        if c = '0' then
          match tail with
          | d :: _ => if d.isDigit then none else some (['0'], tail)
          | [] => some (['0'], tail)
        else some (takeDigitsL cs1)
      match intRes with
      | none => none
      | some (ip, cs2) =>
        let fracRes : Option (List Char × List Char) :=
          match cs2 with
          | '.' :: r =>
            let ds := (takeDigitsL r).1
            if ds.isEmpty then none else some ('.' :: ds, (takeDigitsL r).2)
          | _ => some ([], cs2)
        match fracRes with
        | none => none
        | some (fp, cs3) =>
          let expRes : Option (List Char × List Char) :=
            match cs3 with
            | e :: r =>
              if e = 'e' ∨ e = 'E' then
                let sp2 : List Char × List Char :=
                  match r with
                  | '+' :: rr => (['+'], rr)
                  | '-' :: rr => (['-'], rr)
                  | _ => ([], r)
                let ds := (takeDigitsL sp2.2).1
                if ds.isEmpty then none
                else some (e :: (sp2.1 ++ ds), (takeDigitsL sp2.2).2)
              else some ([], cs3)
            | [] => some ([], cs3)
          match expRes with
          | none => none
          | some (ep, cs4) => some (sgn ++ ip ++ fp ++ ep, cs4)

mutual

/-- Parse one JSON value (fuel-driven recursive-descent model of
`JSON.parse`). Returns the value and the unconsumed input. -/
def parseVal : Nat → List Char → Option (Json × List Char)
  | 0, _ => none
  | Nat.succ fuel, cs =>
    match skipWs cs with
    | [] => none
    | c :: rest =>
      if c = '"' then (parseStrL rest).map (fun p => (Json.str (unitsToString p.1), p.2))
      else if c = '[' then parseArrBody fuel rest
      else if c = lbrace then parseObjBody fuel rest
      else if c = 'n' then
        match rest with
        | 'u' :: 'l' :: 'l' :: r => some (Json.null, r)
        | _ => none
      else if c = 't' then
        match rest with
        | 'r' :: 'u' :: 'e' :: r => some (Json.bool true, r)
        | _ => none
      else if c = 'f' then
        match rest with
        | 'a' :: 'l' :: 's' :: 'e' :: r => some (Json.bool false, r)
        | _ => none
      else if c = '-' ∨ c.isDigit then
        (parseNumL (c :: rest)).map (fun p => (Json.num ⟨p.1⟩, p.2))
      else none
termination_by structural fuel => fuel

/-- Parse an array body after the opening bracket. -/
def parseArrBody : Nat → List Char → Option (Json × List Char)
  | 0, _ => none
  | Nat.succ fuel, cs =>
    match skipWs cs with
    | ']' :: rest => some (Json.arr [], rest)
    | _ => parseItems fuel [] cs
termination_by structural fuel => fuel

/-- Parse the comma-separated elements of a non-empty array. -/
def parseItems : Nat → List Json → List Char → Option (Json × List Char)
  | 0, _, _ => none
  | Nat.succ fuel, acc, cs =>
    match parseVal fuel cs with
    | none => none
    | some (v, rest) =>
      match skipWs rest with
      | ',' :: r2 => parseItems fuel (acc ++ [v]) r2
      | ']' :: r2 => some (Json.arr (acc ++ [v]), r2)
      | _ => none
termination_by structural fuel => fuel

/-- Parse an object body after the opening brace. -/
def parseObjBody : Nat → List Char → Option (Json × List Char)
  | 0, _ => none
  | Nat.succ fuel, cs =>
    match skipWs cs with
    | c :: _ => if c = rbrace then some (Json.obj [], (skipWs cs).tail) else parseFields fuel [] cs
    | [] => none
termination_by structural fuel => fuel

/-- Parse the comma-separated `"key": value` fields of a non-empty
object. Duplicate keys are kept in order; property lookup takes the last
occurrence, matching JS object assignment. -/
def parseFields : Nat → List (String × Json) → List Char → Option (Json × List Char)
  | 0, _, _ => none
  | Nat.succ fuel, acc, cs =>
    match skipWs cs with
    | '"' :: rest =>
      match parseStrL rest with
      | none => none
      | some (key, r2) =>
        match skipWs r2 with
        | ':' :: r3 =>
          match parseVal fuel r3 with
          | none => none
          | some (v, r4) =>
            match skipWs r4 with
            | ',' :: r5 => parseFields fuel (acc ++ [(unitsToString key, v)]) r5
            | c :: r5 => if c = rbrace then some (Json.obj (acc ++ [(unitsToString key, v)]), r5) else none
            | [] => none
        | _ => none
    | _ => none
termination_by structural fuel => fuel

end

/-- The platform's `JSON.parse`: parse one JSON value, allowing leading and
trailing whitespace and rejecting trailing garbage; `none` models a thrown
`SyntaxError`. -/
def jsonParse (s : String) : Option Json :=
  match parseVal (4 * s.data.length + 8) s.data with
  | some (j, rest) => if (skipWs rest).isEmpty then some j else none
  | none => none

/-- HTTP method of an endpoint (the source's `"GET" | "POST"` union). -/
inductive HttpMethod where
  | GET
  | POST
deriving DecidableEq

/-- One registry entry: method, path template with optional `:param`
placeholders, and (for templates with placeholders) the ordered parameter
names read from the payload. -/
structure EndpointDef where
  method : HttpMethod
  pathTemplate : String
  pathParams : Option (List String) := none

/-- The endpoint registry `ENDPOINT_REGISTRY`, in source order: endpoint
name to method and path template. -/
def ENDPOINT_REGISTRY : List (String × EndpointDef) :=
  [("v5/search", { method := HttpMethod.POST, pathTemplate := "v5/search" }),
   ("v5/profile/us/:npi",
     { method := HttpMethod.GET, pathTemplate := "v5/profile/us/:npi",
       pathParams := some ["npi"] }),
   ("v5/health", { method := HttpMethod.GET, pathTemplate := "v5/health" }),
   ("api/query", { method := HttpMethod.POST, pathTemplate := "api/query" }),
   ("api/generate-sql", { method := HttpMethod.POST, pathTemplate := "api/generate-sql" }),
   ("api/generate-form-payload",
     { method := HttpMethod.POST, pathTemplate := "api/generate-form-payload" }),
   ("api/export", { method := HttpMethod.POST, pathTemplate := "api/export" })]

/-- Property lookup `ENDPOINT_REGISTRY[endpointName]`. -/
def registryFind (name : String) : Option EndpointDef :=
  (ENDPOINT_REGISTRY.find? (fun kv => kv.1 = name)).map Prod.snd

/-- `Object.keys(ENDPOINT_REGISTRY)`: the registered endpoint names in
insertion order (own enumerable keys only; inherited properties are not
listed). -/
def registryKeys : List String := ENDPOINT_REGISTRY.map Prod.fst

/-- The property names of `Object.prototype`, which a plain object literal
such as `ENDPOINT_REGISTRY` inherits: reading one of these keys that is not
an own key yields the inherited member (a function, or for `__proto__` the
prototype object), every one of which is truthy. -/
def objectPrototypeMembers : List String :=
  ["constructor", "hasOwnProperty", "isPrototypeOf", "propertyIsEnumerable",
   "toLocaleString", "toString", "valueOf", "__proto__",
   "__defineGetter__", "__defineSetter__", "__lookupGetter__", "__lookupSetter__"]

/-- Result of the JS property read `ENDPOINT_REGISTRY[endpointName]`:
an own key yields its endpoint definition; a non-key that is an
`Object.prototype` member yields a truthy inherited value that is not an
endpoint definition; any other name yields `undefined`. -/
inductive RegistryLookup where
  | found (d : EndpointDef)
  | inherited
  | absent

/-- The full JS property lookup `ENDPOINT_REGISTRY[endpointName]`,
including the prototype chain: own keys first, then the inherited
`Object.prototype` members. -/
def registryGet (name : String) : RegistryLookup :=
  match registryFind name with
  | some d => RegistryLookup.found d
  | none =>
    if objectPrototypeMembers.contains name then RegistryLookup.inherited
    else RegistryLookup.absent

/-- A `Record<string, unknown>` payload: string keys with JSON-compatible
values. A key absent from the list reads as JS `undefined`. -/
abbrev Payload := List (String × Json)

/-- JS object property read `payload[param]`: the last binding of the key
wins (later assignments overwrite), absence is `undefined` (`none`). -/
def objLookup (fields : Payload) (key : String) : Option Json :=
  fields.foldl (fun acc kv => if kv.1 = key then some kv.2 else acc) none

/-- The dispatcher's error taxonomy. Every error in the source is a thrown
`Error` distinguished by its message; the constructors carry the data the
message is built from, and `CallError.message` reproduces the exact message
strings. `jsonSyntaxError` stands for the `SyntaxError` a JSON body parse
rejects with, and `typeErrorUndefinedPath` for the `TypeError` thrown by
`path.startsWith` when an inherited registry lookup leaves the resolved
path `undefined`; both of those message texts are platform-defined. -/
inductive CallError where
  | unknownEndpoint (endpointName : String)
  | missingPathParameter (param : String)
  | invalidNpi
  | unresolvedPlaceholder (template : String)
  | httpError (status : Nat) (detail : String)
  | jsonSyntaxError
  | typeErrorUndefinedPath
deriving DecidableEq

/-- The exact message carried by each thrown error in the source. -/
def CallError.message : CallError → String
  | .unknownEndpoint name =>
    "Unknown endpoint: \"" ++ name ++ "\". Known: " ++ String.intercalate ", " registryKeys
  | .missingPathParameter param => "Missing path parameter: " ++ param
  | .invalidNpi => "NPI must be 10 digits"
  | .unresolvedPlaceholder template => "Unresolved path placeholder in " ++ template
  | .httpError status detail => "DocNexus API " ++ toString status ++ ": " ++ detail
  | .jsonSyntaxError => "Unexpected end of JSON input"
  | .typeErrorUndefinedPath => "Cannot read properties of undefined (reading 'startsWith')"

/-- The parameter-substitution loop of `resolvePath`: for each declared
parameter in order, read it from the payload (absent or null fails with
`MissingPathParameter`), convert to string, canonicalize (`npi`: strip
non-digits and require exactly 10 digits, else `InvalidParameter`;
any other name: percent-encode), and replace the first occurrence of
`:param` in the accumulated path. -/
def substParams : List String → Payload → String → Except CallError String
  | [], _, path => .ok path
  | param :: rest, payload, path =>
    match objLookup payload param with
    | none => .error (.missingPathParameter param)
    | some v =>
      if v.isNull then .error (.missingPathParameter param)
      else if param = "npi" then
        (if (digitsOnly (jsToString v)).length ≠ 10 then .error .invalidNpi
         else substParams rest payload
           (replaceFirst path (":" ++ param) (digitsOnly (jsToString v))))
      else substParams rest payload
        (replaceFirst path (":" ++ param) (encodeURIComponent (jsToString v)))

/-- `resolvePath(template, pathParams, payload)`: run the substitution loop
only when the declared parameter list is non-empty and a payload object was
supplied (the source's `pathParams?.length && payload` guard), then reject
any surviving `:placeholder` with `UnresolvedPlaceholder`. -/
def resolvePath (template : String) (pathParams : Option (List String))
    (payload : Option Payload) : Except CallError String :=
  match
    (match pathParams, payload with
     | some ps, some pl => if ps.isEmpty then Except.ok template else substParams ps pl template
     | _, _ => Except.ok template) with
  | .error e => .error e
  | .ok path => if hasPlaceholder path then .error (.unresolvedPlaceholder template) else .ok path

/-- The outbound HTTP request handed to the transport (`fetchFn(url, ...)`). -/
structure Request where
  url : String
  method : HttpMethod
  headers : List (String × String)
  body : Option String

/-- The transport's response surface: status code, status line text,
response headers, and the body text (which `res.json()` parses and
`res.text()` returns as is). -/
structure Response where
  status : Nat
  statusText : String
  headers : List (String × String)
  text : String

/-- `res.ok`: status in the inclusive range 200-299. -/
def Response.isOk (r : Response) : Bool := 200 ≤ r.status && r.status ≤ 299

/-- `Headers.get(name)`: case-insensitive lookup; multiple values for the
same name join with a comma and space; absent yields `null` (`none`). -/
def headersGet (headers : List (String × String)) (name : String) : Option String :=
  let hits := (headers.filter (fun kv => strToLower kv.1 = strToLower name)).map Prod.snd
  if hits.isEmpty then none else some (String.intercalate ", " hits)

/-- Arguments of one `call` invocation (`PlatformCallOptions` minus the
injected transport, which the model passes separately). -/
structure CallOptions where
  baseUrl : String
  apiKey : String
  endpointName : String
  payload : Option Payload

/-- Strip one trailing slash: JS `baseUrl.replace(/\/$/, "")`. -/
def stripTrailingSlash (s : String) : String :=
  if s.data.getLast? = some '/' then ⟨s.data.dropLast⟩ else s

/-- Target-URL construction: `path.startsWith("http") ? path : base/path`
with the base URL's trailing slash stripped. -/
def buildUrl (baseUrl path : String) : String :=
  if strStartsWith path "http" then path else stripTrailingSlash baseUrl ++ "/" ++ path

/-- `JSON.stringify(payload)` for a payload object. -/
def stringifyPayload (pl : Payload) : String := jsonStringify (Json.obj pl)

/-- The pre-flight part of `call`: registry lookup, path resolution, URL
and header/body construction. Mirrors source order: a name that reads as
`undefined` from the registry fails with `UnknownEndpoint` before any path
processing, while a name that reads a truthy inherited `Object.prototype`
member slips past the `if (!def)` check and ends in a `TypeError` (traced
below); the `apikey` header is always present; only a POST with a supplied
payload gets a JSON content type and a serialized body. -/
def buildRequest (o : CallOptions) : Except CallError Request :=
  match registryGet o.endpointName with
  | .absent => .error (.unknownEndpoint o.endpointName)
  | .inherited =>
    -- The inherited value is truthy, so `if (!def)` does not throw
    -- `UnknownEndpoint`. `resolvePath(def.pathTemplate, def.pathParams,
    -- payload)` then runs with both arguments `undefined`: the
    -- `pathParams?.length && payload` guard is falsy and skips the loop,
    -- `/:[\w]+/.test(undefined)` tests the string "undefined" and does not
    -- match, so `resolvePath` returns `undefined`; `path.startsWith` on
    -- `undefined` then throws a `TypeError` before any header or body is
    -- built and before the transport runs.
    .error .typeErrorUndefinedPath
  | .found defn =>
    match resolvePath defn.pathTemplate defn.pathParams o.payload with
    | .error e => .error e
    | .ok path =>
      match defn.method, o.payload with
      | HttpMethod.POST, some pl =>
        .ok ⟨buildUrl o.baseUrl path, HttpMethod.POST,
             [("apikey", o.apiKey), ("Content-Type", "application/json")],
             some (stringifyPayload pl)⟩
      | m, _ => .ok ⟨buildUrl o.baseUrl path, m, [("apikey", o.apiKey)], none⟩

/-- JS property access `j.key` followed by the nullish test of `??`: yields
a value only when `j` is an object whose last `key` binding is non-null.
(On JSON `null` the source's property access throws inside the `try`, which
`errorDetail` handles separately.) -/
def jsonField (j : Json) (key : String) : Option Json :=
  match j with
  | Json.obj fields =>
    match objLookup fields key with
    | some Json.null => none
    | some v => some v
    | none => none
  | _ => none

/-- The error-path detail extraction of `call`: try `JSON.parse(text)` and
take `j.detail ?? j.error ?? text`; on a parse failure (or the property
access throwing on a parsed `null`) fall back to `text || statusText`. -/
def errorDetail (text statusText : String) : String :=
  match jsonParse text with
  | none => if text = "" then statusText else text
  | some Json.null => if text = "" then statusText else text
  | some j =>
    match jsonField j "detail" with
    | some v => jsToString v
    | none =>
      match jsonField j "error" with
      | some v => jsToString v
      | none => text

/-- Does the declared content type indicate JSON? The source checks
`contentType?.includes("application/json")` on the `content-type` response
header alone; the body never participates. -/
def contentTypeIsJson (headers : List (String × String)) : Bool :=
  match headersGet headers "content-type" with
  | some ct => hasSubstr ct "application/json"
  | none => false

/-- A successful call's result: the parsed JSON value when the response
declares a JSON content type, otherwise the raw body text. -/
inductive CallResult where
  | json (value : Json)
  | text (body : String)

/-- Response normalization of `call`: non-success status becomes an
`HttpError` with the extracted detail; success returns `res.json()` or
`res.text()` according to the declared content type. -/
def processResponse (r : Response) : Except CallError CallResult :=
  if r.isOk then
    if contentTypeIsJson r.headers then
      match jsonParse r.text with
      | some j => .ok (.json j)
      | none => .error .jsonSyntaxError
    else .ok (.text r.text)
  else .error (.httpError r.status (errorDetail r.text r.statusText))

/-- One `call(options)` with an injected transport. The second component
counts transport invocations: `0` when a pre-flight error throws before the
request is made, `1` when the single HTTP exchange happens. -/
def call (o : CallOptions) (transport : Request → Response) :
    Except CallError CallResult × Nat :=
  match buildRequest o with
  | .error e => (.error e, 0)
  | .ok req => (processResponse (transport req), 1)

/-- The four pre-flight failures, thrown before the transport runs:
unknown endpoint, missing path parameter, invalid parameter, unresolved
placeholder. HTTP errors and body-parse errors are post-flight. -/
def isPreflight (r : Except CallError CallResult) : Bool :=
  match r with
  | .error (.unknownEndpoint _) => true
  | .error (.missingPathParameter _) => true
  | .error .invalidNpi => true
  | .error (.unresolvedPlaceholder _) => true
  | _ => false

/-- All failures thrown before the transport runs: the four pre-flight
errors of the spec's taxonomy plus the `TypeError` of the inherited-lookup
path. -/
def isPreflightThrow (r : Except CallError CallResult) : Bool :=
  match r with
  | .error (.unknownEndpoint _) => true
  | .error (.missingPathParameter _) => true
  | .error .invalidNpi => true
  | .error (.unresolvedPlaceholder _) => true
  | .error .typeErrorUndefinedPath => true
  | _ => false

/-- Modelled from the spec's words, for the refinement comparison in claim
C7: the spec says the resolved path is used verbatim when it "is an
absolute URL", which for this http gateway means an `http://` or
`https://` URL. The source instead tests `path.startsWith("http")`. -/
def specAbsoluteUrl (s : String) : Bool :=
  strStartsWith s "http://" || strStartsWith s "https://"

/-! Helper lemmas shared by the claim theorems. -/

theorem strData_append (a b : String) : (a ++ b).data = a.data ++ b.data := by
  cases a
  cases b
  rfl

theorem strApp_assoc (a b c : String) : a ++ b ++ c = a ++ (b ++ c) := by
  cases a
  cases b
  cases c
  exact congrArg String.mk (List.append_assoc _ _ _)

theorem colon_npi : (":" ++ "npi" : String) = ":npi" := rfl

theorem placeholderIn_eq_false (l : List Char) (h : ∀ c ∈ l, c ≠ ':') :
    placeholderIn l = false := by
  induction l with
  | nil => rfl
  | cons c rest ih =>
    cases rest with
    | nil => rfl
    | cons c2 r2 =>
      have hc : c ≠ ':' := h c (by simp)
      have hr : placeholderIn (c2 :: r2) = false := by
        refine ih ?_
        intro x hx
        exact h x (by simp [hx])
      simp [placeholderIn, hr, hc]

theorem mem_digitsOnly (s : String) (c : Char) (h : c ∈ (digitsOnly s).data) :
    c.isDigit = true := by
  have h' : c ∈ s.data.filter Char.isDigit := h
  exact (List.mem_filter.mp h').2

theorem replaceFirst_npi (rep : String) :
    replaceFirst "v5/profile/us/:npi" ":npi" rep = "v5/profile/us/" ++ rep := by
  cases rep with
  | mk l =>
    have h : replaceFirstL "v5/profile/us/:npi".data ":npi".data l =
        "v5/profile/us/".data ++ (l ++ []) := rfl
    have h2 : replaceFirst "v5/profile/us/:npi" ":npi" ⟨l⟩ =
        ⟨"v5/profile/us/".data ++ (l ++ [])⟩ := congrArg String.mk h
    rw [h2, List.append_nil]
    rfl

theorem hasPlaceholder_us_digits (s : String) :
    hasPlaceholder ("v5/profile/us/" ++ digitsOnly s) = false := by
  unfold hasPlaceholder
  apply placeholderIn_eq_false
  intro c hc
  rw [strData_append] at hc
  rcases List.mem_append.mp hc with h | h
  · fin_cases h <;> decide
  · have hd := mem_digitsOnly s c h
    intro heq
    rw [heq] at hd
    exact absurd hd (by decide)

theorem substParams_npi_cons (pl : Payload) (path : String) (v : Json)
    (hv : objLookup pl "npi" = some v) (hnn : v.isNull = false) :
    substParams ["npi"] pl path =
      if (digitsOnly (jsToString v)).length ≠ 10 then Except.error CallError.invalidNpi
      else Except.ok (replaceFirst path ":npi" (digitsOnly (jsToString v))) := by
  unfold substParams
  rw [hv]
  simp [hnn, colon_npi]
  by_cases h10 : (digitsOnly (jsToString v)).length = 10 <;> simp [h10, substParams]

/-- Claim C1: a payload whose `npi` value stringifies and digit-strips to
exactly 10 characters resolves `v5/profile/us/:npi` successfully, the
result being the template with `:npi` replaced by those 10 digits
(concretely `v5/profile/us/` followed by the digits). -/
theorem claim_C1 (pl : Payload) (v : Json)
    (hv : objLookup pl "npi" = some v)
    (hlen : (digitsOnly (jsToString v)).length = 10) :
    resolvePath "v5/profile/us/:npi" (some ["npi"]) (some pl) =
      Except.ok (replaceFirst "v5/profile/us/:npi" ":npi" (digitsOnly (jsToString v)))
    ∧ replaceFirst "v5/profile/us/:npi" ":npi" (digitsOnly (jsToString v)) =
      "v5/profile/us/" ++ digitsOnly (jsToString v) := by
  have hnn : v.isNull = false := by
    cases v
    case null => exact absurd hlen (by decide)
    all_goals rfl
  refine ⟨?_, replaceFirst_npi _⟩
  have hsub := substParams_npi_cons pl "v5/profile/us/:npi" v hv hnn
  rw [if_neg (by simp [hlen])] at hsub
  simp [resolvePath, hsub, replaceFirst_npi, hasPlaceholder_us_digits]

/-- Witness for C1: the spec's concrete example, where the `npi` value
`"(123) 456-7890"` resolves to `v5/profile/us/1234567890`. -/
theorem claim_C1_witness :
    objLookup [("npi", Json.str "(123) 456-7890")] "npi" = some (Json.str "(123) 456-7890")
    ∧ (digitsOnly (jsToString (Json.str "(123) 456-7890"))).length = 10
    ∧ resolvePath "v5/profile/us/:npi" (some ["npi"])
        (some [("npi", Json.str "(123) 456-7890")]) =
      Except.ok "v5/profile/us/1234567890" := by
  refine ⟨rfl, by decide, ?_⟩
  have h := (claim_C1 [("npi", Json.str "(123) 456-7890")] (Json.str "(123) 456-7890")
    rfl (by decide)).1
  rw [h]
  rfl

/-- Claim C8 (with the implicit reading that a null `npi` is treated as
missing, per the resolver's absent-or-null check, so the hypothesis takes a
non-null value): an `npi` value whose stringified, digit-stripped form does
not have length 10 makes resolution of any template requiring `npi` fail
with `InvalidParameter`. -/
theorem claim_C8 (template : String) (pl : Payload) (v : Json)
    (hv : objLookup pl "npi" = some v) (hnn : v.isNull = false)
    (hlen : (digitsOnly (jsToString v)).length ≠ 10) :
    resolvePath template (some ["npi"]) (some pl) = Except.error CallError.invalidNpi := by
  have hsub := substParams_npi_cons pl template v hv hnn
  rw [if_pos hlen] at hsub
  simp [resolvePath, hsub]

/-- Witness for C8: the spec's concrete example `npi = "abc"`. -/
theorem claim_C8_witness :
    objLookup [("npi", Json.str "abc")] "npi" = some (Json.str "abc")
    ∧ (Json.str "abc").isNull = false
    ∧ (digitsOnly (jsToString (Json.str "abc"))).length ≠ 10
    ∧ resolvePath "v5/profile/us/:npi" (some ["npi"]) (some [("npi", Json.str "abc")]) =
      Except.error CallError.invalidNpi :=
  ⟨rfl, rfl, by decide,
    claim_C8 "v5/profile/us/:npi" [("npi", Json.str "abc")] (Json.str "abc") rfl rfl (by decide)⟩

/-- Claim C3: for every registry entry that declares required path
parameters, a payload in which such a parameter is absent or null makes
path resolution fail with `MissingPathParameter` naming that parameter. -/
theorem claim_C3 (entry : String × EndpointDef) (hmem : entry ∈ ENDPOINT_REGISTRY)
    (ps : List String) (hps : entry.2.pathParams = some ps)
    (p : String) (hp : p ∈ ps) (pl : Payload)
    (hv : objLookup pl p = none ∨ objLookup pl p = some Json.null) :
    resolvePath entry.2.pathTemplate entry.2.pathParams (some pl) =
      Except.error (CallError.missingPathParameter p) := by
  simp only [ENDPOINT_REGISTRY, List.mem_cons, List.not_mem_nil, or_false] at hmem
  rcases hmem with h | h | h | h | h | h | h
  · subst h; exact absurd hps (by simp)
  · subst h
    obtain rfl : ps = ["npi"] := by simpa using hps.symm
    obtain rfl : p = "npi" := by simpa using hp
    have hstep : substParams ["npi"] pl "v5/profile/us/:npi" =
        Except.error (CallError.missingPathParameter "npi") := by
      unfold substParams
      rcases hv with hv | hv
      all_goals rw [hv]
      all_goals simp [Json.isNull]
    simp [resolvePath, hstep]
  · subst h; exact absurd hps (by simp)
  · subst h; exact absurd hps (by simp)
  · subst h; exact absurd hps (by simp)
  · subst h; exact absurd hps (by simp)
  · subst h; exact absurd hps (by simp)

/-- Witness for C3: the spec's concrete example, calling the profile
endpoint with an empty payload. -/
theorem claim_C3_witness :
    ("v5/profile/us/:npi",
      ({ method := HttpMethod.GET, pathTemplate := "v5/profile/us/:npi",
         pathParams := some ["npi"] } : EndpointDef)) ∈ ENDPOINT_REGISTRY
    ∧ resolvePath "v5/profile/us/:npi" (some ["npi"]) (some ([] : Payload)) =
      Except.error (CallError.missingPathParameter "npi") := by
  refine ⟨by simp [ENDPOINT_REGISTRY], ?_⟩
  exact claim_C3 ("v5/profile/us/:npi",
      { method := HttpMethod.GET, pathTemplate := "v5/profile/us/:npi",
        pathParams := some ["npi"] })
    (by simp [ENDPOINT_REGISTRY]) ["npi"] rfl "npi" (by simp) [] (Or.inl rfl)

/-- Claim C9: when the payload argument is omitted entirely, the
per-parameter loop is skipped even for an endpoint that declares required
path parameters, so `call` fails with `UnresolvedPlaceholder` (the
template's placeholder survives), not with `MissingPathParameter`. -/
theorem claim_C9 (o : CallOptions) (t : Request → Response) (d : EndpointDef)
    (ps : List String) (hd : registryFind o.endpointName = some d)
    (hps : d.pathParams = some ps) (hpay : o.payload = none) :
    (call o t).1 = Except.error (CallError.unresolvedPlaceholder d.pathTemplate)
    ∧ ∀ q, (call o t).1 ≠ Except.error (CallError.missingPathParameter q) := by
  obtain ⟨kv, hfind, hkv⟩ : ∃ kv, List.find? (fun kv => kv.1 = o.endpointName)
      ENDPOINT_REGISTRY = some kv ∧ kv.2 = d := by
    unfold registryFind at hd
    cases hf : List.find? (fun kv => kv.1 = o.endpointName) ENDPOINT_REGISTRY with
    | none => rw [hf] at hd; exact absurd hd (by simp)
    | some kv => rw [hf] at hd; exact ⟨kv, rfl, by simpa using hd⟩
  have hmem := List.mem_of_find?_eq_some hfind
  simp only [ENDPOINT_REGISTRY, List.mem_cons, List.not_mem_nil, or_false] at hmem
  rcases hmem with h | h | h | h | h | h | h
  · subst h; rw [← hkv] at hps; exact absurd hps (by simp)
  · subst h
    have hdval : d = ⟨HttpMethod.GET, "v5/profile/us/:npi", some ["npi"]⟩ := hkv.symm
    subst hdval
    have hres : resolvePath "v5/profile/us/:npi" (some ["npi"]) none =
        Except.error (CallError.unresolvedPlaceholder "v5/profile/us/:npi") := rfl
    have hg : registryGet o.endpointName =
        RegistryLookup.found ⟨HttpMethod.GET, "v5/profile/us/:npi", some ["npi"]⟩ := by
      simp [registryGet, hd]
    constructor
    · simp [call, buildRequest, hg, hpay, hres]
    · intro q
      simp [call, buildRequest, hg, hpay, hres]
  · subst h; rw [← hkv] at hps; exact absurd hps (by simp)
  · subst h; rw [← hkv] at hps; exact absurd hps (by simp)
  · subst h; rw [← hkv] at hps; exact absurd hps (by simp)
  · subst h; rw [← hkv] at hps; exact absurd hps (by simp)
  · subst h; rw [← hkv] at hps; exact absurd hps (by simp)

/-- Witness for C9: calling the profile endpoint with no payload argument
fails with the unresolved-placeholder error. -/
theorem claim_C9_witness :
    registryFind "v5/profile/us/:npi" = some
      { method := HttpMethod.GET, pathTemplate := "v5/profile/us/:npi",
        pathParams := some ["npi"] }
    ∧ (call ⟨"https://x", "k", "v5/profile/us/:npi", none⟩
        (fun _ => ⟨200, "OK", [], ""⟩)).1 =
      Except.error (CallError.unresolvedPlaceholder "v5/profile/us/:npi") := by
  refine ⟨rfl, ?_⟩
  exact (claim_C9 ⟨"https://x", "k", "v5/profile/us/:npi", none⟩
    (fun _ => ⟨200, "OK", [], ""⟩) _ ["npi"] rfl rfl rfl).1

theorem substrOf_append_left (k J X : String) (h : SubstrOf k J) : SubstrOf k (X ++ J) := by
  obtain ⟨p, q, rfl⟩ := h
  exact ⟨X ++ p, q, by simp [strApp_assoc]⟩

/-- Claim C2, counterexample: `"toString"` is not a key of the registry,
yet `call` does not fail with `UnknownEndpoint`: the JS property read
walks the prototype chain, gets the truthy inherited `Object.prototype.toString`,
skips the `if (!def)` throw, and crashes with a `TypeError` once
`path.startsWith` is called on the `undefined` resolved path. -/
theorem claim_C2_cex :
    registryFind "toString" = none
    ∧ objectPrototypeMembers.contains "toString" = true
    ∧ (call ⟨"https://x", "k", "toString", none⟩ (fun _ => ⟨200, "OK", [], ""⟩)).1 =
        Except.error CallError.typeErrorUndefinedPath
    ∧ (call ⟨"https://x", "k", "toString", none⟩ (fun _ => ⟨200, "OK", [], ""⟩)).1 ≠
        Except.error (CallError.unknownEndpoint "toString") := by
  refine ⟨rfl, rfl, rfl, ?_⟩
  intro hc
  simp [call, buildRequest, registryGet, registryFind, ENDPOINT_REGISTRY,
    objectPrototypeMembers] at hc

/-- Claim C2 as amended: for every endpoint name that is neither a key of
the registry nor one of the inherited `Object.prototype` property names,
`call` fails with `UnknownEndpoint` before any other processing (zero
transport invocations), and the error message enumerates all seven
registered endpoint names. -/
theorem claim_C2 (o : CallOptions) (t : Request → Response)
    (h : registryFind o.endpointName = none)
    (hproto : objectPrototypeMembers.contains o.endpointName = false) :
    (call o t).1 = Except.error (CallError.unknownEndpoint o.endpointName)
    ∧ (call o t).2 = 0
    ∧ (CallError.unknownEndpoint o.endpointName).message =
        "Unknown endpoint: \"" ++ o.endpointName ++ "\". Known: "
          ++ String.intercalate ", " registryKeys
    ∧ registryKeys.length = 7
    ∧ ∀ k ∈ registryKeys, SubstrOf k (CallError.unknownEndpoint o.endpointName).message := by
  have hg : registryGet o.endpointName = RegistryLookup.absent := by
    have hnm : o.endpointName ∉ objectPrototypeMembers := by simpa using hproto
    simp [registryGet, h, hnm]
  refine ⟨?_, ?_, rfl, by decide, ?_⟩
  · simp [call, buildRequest, hg]
  · simp [call, buildRequest, hg]
  · intro k hk
    have hIJ : String.intercalate ", " registryKeys =
        "v5/search, v5/profile/us/:npi, v5/health, api/query, api/generate-sql, api/generate-form-payload, api/export" := by
      decide
    have hm : (CallError.unknownEndpoint o.endpointName).message =
        ("Unknown endpoint: \"" ++ o.endpointName ++ "\". Known: ") ++
          "v5/search, v5/profile/us/:npi, v5/health, api/query, api/generate-sql, api/generate-form-payload, api/export" := by
      simp only [CallError.message]
      rw [hIJ]
    rw [hm]
    apply substrOf_append_left
    simp only [registryKeys, ENDPOINT_REGISTRY, List.map_cons, List.map_nil,
      List.mem_cons, List.not_mem_nil, or_false] at hk
    rcases hk with rfl | rfl | rfl | rfl | rfl | rfl | rfl
    · exact ⟨"", ", v5/profile/us/:npi, v5/health, api/query, api/generate-sql, api/generate-form-payload, api/export", by decide⟩
    · exact ⟨"v5/search, ", ", v5/health, api/query, api/generate-sql, api/generate-form-payload, api/export", by decide⟩
    · exact ⟨"v5/search, v5/profile/us/:npi, ", ", api/query, api/generate-sql, api/generate-form-payload, api/export", by decide⟩
    · exact ⟨"v5/search, v5/profile/us/:npi, v5/health, ", ", api/generate-sql, api/generate-form-payload, api/export", by decide⟩
    · exact ⟨"v5/search, v5/profile/us/:npi, v5/health, api/query, ", ", api/generate-form-payload, api/export", by decide⟩
    · exact ⟨"v5/search, v5/profile/us/:npi, v5/health, api/query, api/generate-sql, ", ", api/export", by decide⟩
    · exact ⟨"v5/search, v5/profile/us/:npi, v5/health, api/query, api/generate-sql, api/generate-form-payload, ", "", by decide⟩

/-- Witness for C2: the unregistered, non-prototype name `bogus`. -/
theorem claim_C2_witness :
    registryFind "bogus" = none
    ∧ objectPrototypeMembers.contains "bogus" = false
    ∧ (call ⟨"https://x", "k", "bogus", none⟩ (fun _ => ⟨200, "OK", [], ""⟩)).1 =
        Except.error (CallError.unknownEndpoint "bogus")
    ∧ (call ⟨"https://x", "k", "bogus", none⟩ (fun _ => ⟨200, "OK", [], ""⟩)).2 = 0
    ∧ SubstrOf "v5/health" (CallError.unknownEndpoint "bogus").message := by
  have h := claim_C2 ⟨"https://x", "k", "bogus", none⟩ (fun _ => ⟨200, "OK", [], ""⟩) rfl rfl
  exact ⟨rfl, rfl, h.1, h.2.1, h.2.2.2.2 "v5/health" (by decide)⟩

/-- Claim C4: every non-success response fails with an `HttpError` carrying
the response's status and the detail extracted per the source's fallback
chain: the parsed body's `detail` field, else its `error` field, else the
raw body text, else the status line. -/
theorem claim_C4 (r : Response) (h : r.isOk = false) :
    processResponse r =
      Except.error (CallError.httpError r.status (errorDetail r.text r.statusText))
    ∧ (∀ j v, jsonParse r.text = some j → jsonField j "detail" = some v →
        errorDetail r.text r.statusText = jsToString v)
    ∧ (∀ j v, jsonParse r.text = some j → jsonField j "detail" = none →
        jsonField j "error" = some v → errorDetail r.text r.statusText = jsToString v)
    ∧ (∀ j, jsonParse r.text = some j → j ≠ Json.null → jsonField j "detail" = none →
        jsonField j "error" = none → errorDetail r.text r.statusText = r.text)
    ∧ (jsonParse r.text = none → r.text ≠ "" → errorDetail r.text r.statusText = r.text)
    ∧ (jsonParse r.text = none → r.text = "" →
        errorDetail r.text r.statusText = r.statusText)
    ∧ (∀ (o : CallOptions) (transport : Request → Response) (req : Request),
        buildRequest o = Except.ok req → transport req = r →
        (call o transport).1 =
          Except.error (CallError.httpError r.status (errorDetail r.text r.statusText))) := by
  refine ⟨by simp [processResponse, h], ?_, ?_, ?_, ?_, ?_, ?_⟩
  · intro j v hj hd
    cases j with
    | null => simp [jsonField] at hd
    | bool b => simp [jsonField] at hd
    | num l => simp [jsonField] at hd
    | str s => simp [jsonField] at hd
    | arr es => simp [jsonField] at hd
    | obj fields => simp [errorDetail, hj, hd]
  · intro j v hj hd he
    cases j with
    | null => simp [jsonField] at he
    | bool b => simp [jsonField] at he
    | num l => simp [jsonField] at he
    | str s => simp [jsonField] at he
    | arr es => simp [jsonField] at he
    | obj fields => simp [errorDetail, hj, hd, he]
  · intro j hj hne hd he
    cases j with
    | null => exact absurd rfl hne
    | bool b => simp [errorDetail, hj, jsonField]
    | num l => simp [errorDetail, hj, jsonField]
    | str s => simp [errorDetail, hj, jsonField]
    | arr es => simp [errorDetail, hj, jsonField]
    | obj fields => simp [errorDetail, hj, hd, he]
  · intro hj ht
    simp [errorDetail, hj, ht]
  · intro hj ht
    rw [ht]
    rfl
  · intro o transport req hb ht
    simp [call, hb, ht, processResponse, h]

/-- Witness for C4: HTTP 500 with body consisting of a JSON object whose
`detail` field is `"boom"` yields status 500 and a message containing
`boom`. -/
theorem claim_C4_witness :
    (Response.mk 500 "Internal Server Error" [] "\x7b\"detail\":\"boom\"\x7d").isOk = false
    ∧ processResponse (Response.mk 500 "Internal Server Error" [] "\x7b\"detail\":\"boom\"\x7d") =
        Except.error (CallError.httpError 500 "boom")
    ∧ SubstrOf "boom" (CallError.httpError 500 "boom").message := by
  have h := (claim_C4 (Response.mk 500 "Internal Server Error" [] "\x7b\"detail\":\"boom\"\x7d") rfl).1
  refine ⟨rfl, ?_, "DocNexus API 500: ", "", by decide⟩
  rw [h]
  rfl

/-- Claim C5: on a success response the dispatcher returns the JSON-parsed
body exactly when the declared content-type header indicates JSON (the
branch condition reads only the headers), and otherwise returns the raw
body text unchanged. -/
theorem claim_C5 (r : Response) (h : r.isOk = true) :
    (contentTypeIsJson r.headers = true →
      processResponse r =
        match jsonParse r.text with
        | some j => Except.ok (CallResult.json j)
        | none => Except.error CallError.jsonSyntaxError)
    ∧ (contentTypeIsJson r.headers = false →
        processResponse r = Except.ok (CallResult.text r.text))
    ∧ (∀ (o : CallOptions) (transport : Request → Response) (req : Request),
        buildRequest o = Except.ok req → transport req = r →
        (call o transport).1 = processResponse r) := by
  refine ⟨?_, ?_, ?_⟩
  · intro hct
    simp [processResponse, h, hct]
  · intro hct
    simp [processResponse, h, hct]
  · intro o transport req hb ht
    simp [call, hb, ht]

/-- Witness for C5: a JSON-content-type success response parses its body; a
CSV success response returns its body text verbatim. -/
theorem claim_C5_witness :
    (Response.mk 200 "OK" [("Content-Type", "application/json; charset=utf-8")]
        "\x7b\"a\":1\x7d").isOk = true
    ∧ processResponse (Response.mk 200 "OK"
        [("Content-Type", "application/json; charset=utf-8")] "\x7b\"a\":1\x7d") =
      Except.ok (CallResult.json (Json.obj [("a", Json.num "1")]))
    ∧ (Response.mk 201 "Created" [("Content-Type", "text/csv")] "x,y").isOk = true
    ∧ processResponse (Response.mk 201 "Created" [("Content-Type", "text/csv")] "x,y") =
      Except.ok (CallResult.text "x,y") := by
  have h1 := (claim_C5 (Response.mk 200 "OK"
    [("Content-Type", "application/json; charset=utf-8")] "\x7b\"a\":1\x7d") rfl).1 rfl
  have h2 := (claim_C5 (Response.mk 201 "Created" [("Content-Type", "text/csv")] "x,y") rfl).2.1 rfl
  refine ⟨rfl, ?_, rfl, h2⟩
  rw [h1]
  rfl

theorem registryFind_of_registryGet (name : String) (d : EndpointDef)
    (h : registryGet name = RegistryLookup.found d) : registryFind name = some d := by
  unfold registryGet at h
  split at h
  · rename_i d2 hf
    injection h with h2
    rw [hf, h2]
  · split at h
    · exact absurd h (by simp)
    · exact absurd h (by simp)

/-- Claim C6: every request built by `call` carries the API key under the
`apikey` header; a POST endpoint with a supplied payload additionally gets
a JSON content type and the serialized payload as body; a GET endpoint's
request never carries a body. -/
theorem claim_C6 (o : CallOptions) (req : Request) (h : buildRequest o = Except.ok req) :
    ("apikey", o.apiKey) ∈ req.headers
    ∧ (∀ d pl, registryFind o.endpointName = some d → d.method = HttpMethod.POST →
        o.payload = some pl →
        ("Content-Type", "application/json") ∈ req.headers
        ∧ req.body = some (stringifyPayload pl))
    ∧ (∀ d, registryFind o.endpointName = some d → d.method = HttpMethod.GET →
        req.body = none) := by
  unfold buildRequest at h
  split at h
  · exact absurd h (by simp)
  · exact absurd h (by simp)
  · rename_i defn hf
    split at h
    · exact absurd h (by simp)
    · rename_i path hr
      cases hm : defn.method with
      | POST =>
        cases hp : o.payload with
        | some pl0 =>
          rw [hm, hp] at h
          simp only [Except.ok.injEq] at h
          subst h
          refine ⟨by simp, ?_, ?_⟩
          · intro d pl hfd hmd hpd
            injection hpd with hpl
            subst hpl
            exact ⟨by simp, rfl⟩
          · intro d hfd hmd
            rw [registryFind_of_registryGet _ _ hf] at hfd
            injection hfd with hdd
            subst hdd
            rw [hm] at hmd
            exact absurd hmd (by simp)
        | none =>
          rw [hm, hp] at h
          simp only [Except.ok.injEq] at h
          subst h
          refine ⟨by simp, ?_, ?_⟩
          · intro d pl hfd hmd hpd
            exact absurd hpd (by simp)
          · intro d hfd hmd
            rfl
      | GET =>
        cases hp : o.payload with
        | some pl0 =>
          rw [hm, hp] at h
          simp only [Except.ok.injEq] at h
          subst h
          refine ⟨by simp, ?_, ?_⟩
          · intro d pl hfd hmd hpd
            rw [registryFind_of_registryGet _ _ hf] at hfd
            injection hfd with hdd
            subst hdd
            rw [hm] at hmd
            exact absurd hmd (by simp)
          · intro d hfd hmd
            rfl
        | none =>
          rw [hm, hp] at h
          simp only [Except.ok.injEq] at h
          subst h
          refine ⟨by simp, ?_, ?_⟩
          · intro d pl hfd hmd hpd
            exact absurd hpd (by simp)
          · intro d hfd hmd
            rfl

/-- Witness for C6: a POST call to `v5/search` carries the key header, the
JSON content type, and the serialized payload; the serialization is shown
concretely. -/
theorem claim_C6_witness :
    buildRequest ⟨"https://x", "KEY", "v5/search", some [("first_name", Json.str "John")]⟩ =
      Except.ok ⟨"https://x/v5/search", HttpMethod.POST,
        [("apikey", "KEY"), ("Content-Type", "application/json")],
        some (stringifyPayload [("first_name", Json.str "John")])⟩
    ∧ ("apikey", "KEY") ∈ [("apikey", "KEY"), ("Content-Type", "application/json")]
    ∧ ("Content-Type", "application/json") ∈
        [("apikey", "KEY"), ("Content-Type", "application/json")]
    ∧ stringifyPayload [("first_name", Json.str "John")] = "\x7b\"first_name\":\"John\"\x7d" := by
  have h := claim_C6 ⟨"https://x", "KEY", "v5/search", some [("first_name", Json.str "John")]⟩
    ⟨"https://x/v5/search", HttpMethod.POST,
      [("apikey", "KEY"), ("Content-Type", "application/json")],
      some (stringifyPayload [("first_name", Json.str "John")])⟩ rfl
  have h2 := h.2.1 ⟨HttpMethod.POST, "v5/search", none⟩ [("first_name", Json.str "John")] rfl rfl rfl
  exact ⟨rfl, h.1, h2.1, by decide⟩

theorem isPrefixOf_of_append (p1 p2 l : List Char)
    (h : (p1 ++ p2).isPrefixOf l = true) : p1.isPrefixOf l = true := by
  induction p1 generalizing l with
  | nil => simp [List.isPrefixOf]
  | cons a p1' ih =>
    cases l with
    | nil => simp [List.isPrefixOf] at h
    | cons b l' =>
      simp only [List.cons_append, List.isPrefixOf, Bool.and_eq_true] at h ⊢
      exact ⟨h.1, ih l' h.2⟩

/-- Claim C7, counterexample: the source's verbatim branch triggers on any
path starting with the four characters `http`, which need not be an
absolute URL. For path `httpx` the built URL is `httpx` verbatim, not the
base-joined `b/httpx` the claim requires for non-absolute paths. -/
theorem claim_C7_cex :
    buildUrl "b" "httpx" = "httpx"
    ∧ specAbsoluteUrl "httpx" = false
    ∧ buildUrl "b" "httpx" ≠ stripTrailingSlash "b" ++ "/" ++ "httpx" := by
  exact ⟨rfl, by decide, by decide⟩

/-- Claim C7 as amended: the target URL is the resolved path verbatim
exactly when the path starts with `http` (which in particular covers every
absolute `http://`/`https://` URL), and otherwise is the base URL with one
trailing slash stripped, a slash, and the path. -/
theorem claim_C7 (base path : String) :
    (strStartsWith path "http" = true → buildUrl base path = path)
    ∧ (strStartsWith path "http" = false →
        buildUrl base path = stripTrailingSlash base ++ "/" ++ path)
    ∧ (specAbsoluteUrl path = true → buildUrl base path = path) := by
  refine ⟨fun h => by simp [buildUrl, h], fun h => by simp [buildUrl, h], fun h => ?_⟩
  have hp : strStartsWith path "http" = true := by
    unfold specAbsoluteUrl at h
    cases hb : strStartsWith path "http://" with
    | true =>
      unfold strStartsWith at hb ⊢
      have he : ("http://".data : List Char) = "http".data ++ "://".data := by decide
      rw [he] at hb
      exact isPrefixOf_of_append _ _ _ hb
    | false =>
      have hb2 : strStartsWith path "https://" = true := by
        rw [hb] at h
        simpa using h
      unfold strStartsWith at hb2 ⊢
      have he : ("https://".data : List Char) = "http".data ++ "s://".data := by decide
      rw [he] at hb2
      exact isPrefixOf_of_append _ _ _ hb2
  simp [buildUrl, hp]

/-- Witness for C7: a relative path joins the slash-stripped base, and an
absolute URL passes through verbatim. -/
theorem claim_C7_witness :
    strStartsWith "v5/health" "http" = false
    ∧ buildUrl "https://api.docnexus.ai/" "v5/health" = "https://api.docnexus.ai/v5/health"
    ∧ specAbsoluteUrl "https://api.docnexus.ai/v5/health" = true
    ∧ buildUrl "ignored" "https://api.docnexus.ai/v5/health" =
        "https://api.docnexus.ai/v5/health" := by
  have h1 := (claim_C7 "https://api.docnexus.ai/" "v5/health").2.1 (by decide)
  have h2 := (claim_C7 "ignored" "https://api.docnexus.ai/v5/health").2.2 (by decide)
  refine ⟨by decide, ?_, by decide, h2⟩
  rw [h1]
  decide

theorem substParams_error_kinds (ps : List String) :
    ∀ (pl : Payload) (path : String) (e : CallError),
      substParams ps pl path = Except.error e → isPreflight (Except.error e) = true := by
  induction ps with
  | nil =>
    intro pl path e h
    exact absurd h (by simp [substParams])
  | cons param rest ih =>
    intro pl path e h
    unfold substParams at h
    split at h
    · obtain rfl : CallError.missingPathParameter param = e := by simpa using h
      rfl
    · split at h
      · obtain rfl : CallError.missingPathParameter param = e := by simpa using h
        rfl
      · split at h
        · split at h
          · obtain rfl : CallError.invalidNpi = e := by simpa using h
            rfl
          · exact ih _ _ _ h
        · exact ih _ _ _ h

theorem resolvePath_error_kinds (template : String) (pp : Option (List String))
    (pl : Option Payload) (e : CallError)
    (h : resolvePath template pp pl = Except.error e) :
    isPreflight (Except.error e) = true := by
  unfold resolvePath at h
  split at h
  · rename_i e2 heq
    obtain rfl : e2 = e := by simpa using h
    split at heq
    · split at heq
      · exact absurd heq (by simp)
      · exact substParams_error_kinds _ _ _ _ heq
    · exact absurd heq (by simp)
  · rename_i path heq
    split at h
    · obtain rfl : CallError.unresolvedPlaceholder template = e := by simpa using h
      rfl
    · exact absurd h (by simp)

theorem isPreflightThrow_of_isPreflight (r : Except CallError CallResult)
    (h : isPreflight r = true) : isPreflightThrow r = true := by
  cases r with
  | ok v => simp [isPreflight] at h
  | error e => cases e <;> simp_all [isPreflight, isPreflightThrow]

theorem buildRequest_error_kinds (o : CallOptions) (e : CallError)
    (h : buildRequest o = Except.error e) : isPreflightThrow (Except.error e) = true := by
  unfold buildRequest at h
  split at h
  · obtain rfl : CallError.unknownEndpoint o.endpointName = e := by simpa using h
    rfl
  · obtain rfl : CallError.typeErrorUndefinedPath = e := by simpa using h
    rfl
  · rename_i defn hf
    split at h
    · rename_i e2 hr
      obtain rfl : e2 = e := by simpa using h
      exact isPreflightThrow_of_isPreflight _ (resolvePath_error_kinds _ _ _ _ hr)
    · rename_i path hr
      split at h
      · exact absurd h (by simp)
      · exact absurd h (by simp)

theorem processResponse_not_preflight (r : Response) :
    isPreflight (processResponse r) = false := by
  unfold processResponse
  by_cases hok : r.isOk = true
  · rw [if_pos hok]
    by_cases hct : contentTypeIsJson r.headers = true
    · rw [if_pos hct]
      cases hj : jsonParse r.text with
      | none => rfl
      | some j => rfl
    · rw [if_neg hct]
      rfl
  · rw [if_neg hok]
    rfl

theorem processResponse_not_preflightThrow (r : Response) :
    isPreflightThrow (processResponse r) = false := by
  unfold processResponse
  by_cases hok : r.isOk = true
  · rw [if_pos hok]
    by_cases hct : contentTypeIsJson r.headers = true
    · rw [if_pos hct]
      cases hj : jsonParse r.text with
      | none => rfl
      | some j => rfl
    · rw [if_neg hct]
      rfl
  · rw [if_neg hok]
    rfl

/-- Claim C10, counterexample: at the inherited name `toString` the
transport is invoked zero times although `call` fails with none of the
four pre-flight errors (it fails with the inherited-lookup `TypeError`),
contradicting the claim's "exactly one otherwise". -/
theorem claim_C10_cex :
    (call ⟨"https://x", "k", "toString", none⟩ (fun _ => ⟨200, "OK", [], ""⟩)).1 =
        Except.error CallError.typeErrorUndefinedPath
    ∧ isPreflight (call ⟨"https://x", "k", "toString", none⟩
        (fun _ => ⟨200, "OK", [], ""⟩)).1 = false
    ∧ (call ⟨"https://x", "k", "toString", none⟩ (fun _ => ⟨200, "OK", [], ""⟩)).2 = 0 :=
  ⟨rfl, rfl, rfl⟩

/-- Claim C10 as amended: whenever `call` fails with one of the four
pre-flight errors the transport is never invoked, and the invocation count
is zero exactly on the pre-flight throws — those four errors plus the
`TypeError` of the inherited-lookup path — and one otherwise, on success
as well as on HTTP or body-parse errors. -/
theorem claim_C10 (o : CallOptions) (transport : Request → Response) :
    (isPreflight (call o transport).1 = true → (call o transport).2 = 0)
    ∧ (call o transport).2 =
        (if isPreflightThrow (call o transport).1 then 0 else 1) := by
  cases hb : buildRequest o with
  | error e => simp [call, hb, buildRequest_error_kinds o e hb]
  | ok req =>
    simp [call, hb, processResponse_not_preflight, processResponse_not_preflightThrow]

/-- Witness for C10: a pre-flight failure (unknown endpoint) makes zero
transport invocations; a successful call makes exactly one. -/
theorem claim_C10_witness :
    isPreflight (call ⟨"https://x", "k", "bogus", none⟩
        (fun _ => ⟨200, "OK", [], ""⟩)).1 = true
    ∧ (call ⟨"https://x", "k", "bogus", none⟩ (fun _ => ⟨200, "OK", [], ""⟩)).2 = 0
    ∧ (call ⟨"https://x", "k", "v5/health", none⟩ (fun _ => ⟨200, "OK", [], "ok"⟩)).2 = 1 := by
  refine ⟨rfl,
    (claim_C10 ⟨"https://x", "k", "bogus", none⟩ (fun _ => ⟨200, "OK", [], ""⟩)).1 rfl, ?_⟩
  have h := (claim_C10 ⟨"https://x", "k", "v5/health", none⟩
    (fun _ => ⟨200, "OK", [], "ok"⟩)).2
  rw [h]
  rfl
